import Mathlib

/-!
Verification of the swiftcast localhost reverse proxy.

This file gives a shallow embedding, in Lean 4, of the parts of the
swiftcast source that the specification's claims talk about:

* the proxy handler's session-id derivation and upstream auth-header
  rewriting (`src-tauri/src/proxy/server.rs`, `proxy_handler`);
* the SSE scanner (`parse_usage_from_sse`, `parse_text_from_sse`,
  `parse_tool_use_from_sse` in `server.rs`);
* the request-info extraction and excerpt truncation
  (`parse_request_info` in `server.rs`);
* the command interceptor (`parse_task_command`, `try_intercept`,
  `generate_sse_response` in `proxy/hooks/custom_task.rs`);
* the compaction injector (`proxy/hooks/compaction_injector.rs`);
* the step tracker (`proxy/step_tracker.rs`);
* the persistent store's `log_usage`, `switch_account` and
  `update_session_activity` (`storage/database.rs`).

Conventions of the embedding:

* Rust `serde_json::Value` is modelled by the inductive `Json`; field
  access helpers (`Json.getField`, `Json.asStr`, `Json.asInt`,
  `Json.asArr`) mirror `Value::get`, `as_str`, `as_i64`, `as_array`.
* Rust strings are Lean `String`s; byte indices returned by `str::find`
  are modelled as character indices over `String.data`, which denote the
  same split points on valid UTF-8 text.  `char::is_whitespace` is
  modelled by `Char.isWhitespace` (they agree on the ASCII whitespace
  used throughout the source and in every concrete input below).
* The lexical stage of the SSE scanner (UTF-8 validation of a chunk,
  splitting it into lines, the `data: ` prefix test and the
  `serde_json::from_str` parse) is represented by the input types
  `SseLine` (a `data: ` line with its parse result, or any other line)
  and `Option (List SseLine)` (`none` is a chunk that is not valid
  UTF-8).  The extraction logic that follows those stages is translated
  statement by statement from the source.
* SQL tables are modelled as lists of row structures; each store
  operation is the pure state transformation its SQL statements perform.
-/

/-- Model of `serde_json::Value` restricted to the shapes the proxy
inspects (no floats are ever read by the code under verification). -/
inductive Json where
  | null
  | bool (b : Bool)
  | num (n : Int)
  | str (s : String)
  | arr (items : List Json)
  | obj (fields : List (String × Json))

/-- Model of `serde_json::Value::get` on objects (first matching key). -/
def Json.getField : Json → String → Option Json
  | .obj fields, key => (fields.find? (fun kv => kv.1 == key)).map (fun kv => kv.2)
  | _, _ => none

/-- Model of `serde_json::Value::as_str`. -/
def Json.asStr : Json → Option String
  | .str s => some s
  | _ => none

/-- Model of `serde_json::Value::as_i64`. -/
def Json.asInt : Json → Option Int
  | .num n => some n
  | _ => none

/-- Model of `serde_json::Value::as_array`. -/
def Json.asArr : Json → Option (List Json)
  | .arr items => some items
  | _ => none

/-- Index of the first occurrence of `pat` in `hay` (model of Rust
`str::find` for a literal pattern, with byte positions replaced by
character positions). -/
def findSubstr (pat : List Char) : List Char → Option Nat
  | [] => if pat.isPrefixOf [] then some 0 else none
  | c :: rest =>
    if pat.isPrefixOf (c :: rest) then some 0
    else (findSubstr pat rest).map (fun n => n + 1)

/-- Model of Rust `str::contains` for a literal pattern. -/
def strContains (hay : String) (pat : String) : Bool :=
  (findSubstr pat.data hay.data).isSome

/-- Model of Rust lowercasing (`str::to_lowercase`, and the lowercased
view of HTTP header names) at the character level; `Char.toLower` agrees
with Rust on ASCII, which covers every name and keyword the source
compares. -/
def strToLower (s : String) : String :=
  String.mk (s.data.map Char.toLower)

/-- Model of Rust `str::split(sep)` collected to a list (the source only
ever takes `.next()` of the iterator, i.e. the head of this list). -/
def splitChar (sep : Char) : List Char → List (List Char)
  | [] => [[]]
  | c :: rest =>
    if c = sep then [] :: splitChar sep rest
    else
      match splitChar sep rest with
      | [] => [[c]]
      | t :: ts => (c :: t) :: ts

/-- Model of Rust `str::trim` (both ends) at the character level. -/
def trimChars (cs : List Char) : List Char :=
  ((cs.dropWhile Char.isWhitespace).reverse.dropWhile Char.isWhitespace).reverse

/-- Model of `str::split_whitespace().next()`: the first maximal run of
non-whitespace characters, or `none` if there is none. -/
def firstToken (cs : List Char) : Option (List Char) :=
  let tok := (cs.dropWhile Char.isWhitespace).takeWhile (fun c => !c.isWhitespace)
  if tok.isEmpty then none else some tok

/-- Model of slice `chunks n` (consecutive blocks of `n`, last may be
shorter; an empty slice yields no chunks). -/
def chunksOf (n : Nat) : List α → List (List α)
  | [] => []
  | x :: xs => (x :: xs.take (n - 1)) :: chunksOf n (xs.drop (n - 1))
termination_by xs => xs.length
decreasing_by
  simp only [List.length_drop, List.length_cons]
  omega

/-! ## Session-id derivation (`proxy_handler`, server.rs lines 470-483) -/

/-- Model of `HeaderMap::get` followed by `to_str` on a header map whose
names are already lowercased (as the HTTP layer guarantees): the first
value stored under `name`. -/
def header_value (headers : List (String × String)) (name : String) : Option String :=
  (headers.find? (fun kv => kv.1 == name)).map (fun kv => kv.2)

/-- Translation of the session-id derivation in `proxy_handler`:
`x-session-id`, or else `x-request-id`, or else the part of
`sentry-trace` before the first `-` (via `split('-').next()`). -/
def extract_session_id (headers : List (String × String)) : Option String :=
  ((header_value headers "x-session-id").orElse
      (fun _ => header_value headers "x-request-id")).orElse
    (fun _ =>
      (header_value headers "sentry-trace").bind
        (fun s => ((splitChar '-' s.data).head?).map String.mk))

/-! ## Upstream auth-header rewriting (`proxy_handler`, server.rs lines 597-630) -/

/-- Translation of `account.base_url.contains("api.anthropic.com")`. -/
def is_anthropic (base_url : String) : Bool :=
  strContains base_url "api.anthropic.com"

/-- One iteration of the header-forwarding loop in `proxy_handler`:
whether the inbound header `kv` is copied onto the upstream request (the
Rust `match` on the lowercased name, written as its equivalent
equality-test chain). -/
def forward_header (anthropic : Bool) (kv : String × String) : Bool :=
  if strToLower kv.1 == "host" || strToLower kv.1 == "content-length"
      || strToLower kv.1 == "connection" || strToLower kv.1 == "transfer-encoding"
      || strToLower kv.1 == "accept-encoding" then false
  else if strToLower kv.1 == "x-api-key" || strToLower kv.1 == "authorization" then anthropic
  else true

/-- Translation of the whole outbound-header construction: the copy loop
followed by `if !is_anthropic && !api_key.is_empty() { header("x-api-key", api_key) }`. -/
def build_upstream_headers (base_url api_key : String)
    (original : List (String × String)) : List (String × String) :=
  let anthropic := is_anthropic base_url
  let forwarded := original.filter (forward_header anthropic)
  if !anthropic && !(api_key == "") then forwarded ++ [("x-api-key", api_key)]
  else forwarded

/-- The authentication subset of a header list (the set the spec's
auth-header invariant talks about). -/
def auth_headers (headers : List (String × String)) : List (String × String) :=
  headers.filter (fun kv => strToLower kv.1 == "x-api-key" || strToLower kv.1 == "authorization")

/-! ## Request-info extraction and excerpt truncation (`parse_request_info`, server.rs lines 41-86) -/

/-- Extraction of the text of the last `role == "user"` message from a
parsed body: string content, or else the first `type == "text"` item of a
content array (translated from the closure in `parse_request_info`). -/
def extract_last_user_text (json : Json) : Option String :=
  ((json.getField "messages").bind Json.asArr).bind
    (fun messages =>
      (messages.reverse.find?
          (fun msg => (msg.getField "role").bind Json.asStr == some "user")).bind
        (fun msg =>
          match (msg.getField "content").bind Json.asStr with
          | some content => some content
          | none =>
            match (msg.getField "content").bind Json.asArr with
            | some content_array =>
              content_array.findSome?
                (fun item =>
                  if (item.getField "type").bind Json.asStr == some "text" then
                    (item.getField "text").bind Json.asStr
                  else none)
            | none => none))

/-- Translation of the excerpt limiter in `parse_request_info`:
`if s.chars().count() > 100 { format!("{}...", s.chars().take(97)...) } else { s }`. -/
def truncate_message (s : String) : String :=
  if s.data.length > 100 then String.mk (s.data.take 97) ++ "..." else s

/-- Model of the `RequestInfo` struct in server.rs. -/
structure RequestInfo where
  model : String
  last_message : Option String
deriving DecidableEq

/-- Translation of `parse_request_info` (the argument is the result of
`serde_json::from_slice` on the body; `none` is a parse failure, which
yields `RequestInfo::default()`). -/
def parse_request_info : Option Json → RequestInfo
  | none => { model := "", last_message := none }
  | some json =>
    { model := ((json.getField "model").bind Json.asStr).getD "unknown"
      last_message := (extract_last_user_text json).map truncate_message }

/-! ## SSE scanner (server.rs lines 146-247, wrapped stream lines 781-986) -/

/-- One line of a chunk as the scanner sees it after the lexical stage: a
line starting with `data: ` together with the result of
`serde_json::from_str` on its payload, or any other line. -/
inductive SseLine where
  | dataLine (parsed : Option Json)
  | otherLine

/-- Model of the `UsageInfo` struct in server.rs. -/
structure UsageInfo where
  input_tokens : Int
  output_tokens : Int
  stop_reason : Option String
deriving DecidableEq

/-- The per-payload body of `parse_usage_from_sse`: the `message_delta`
branch (which returns only when a top-level `usage` field is present)
followed by the `message_stop` branch. -/
def usage_of_json (j : Json) : Option UsageInfo :=
  let fromMessageDelta : Option UsageInfo :=
    if (j.getField "type").bind Json.asStr == some "message_delta" then
      let stop_reason :=
        ((j.getField "delta").bind (fun d => d.getField "stop_reason")).bind Json.asStr
      match j.getField "usage" with
      | some usage =>
        some { input_tokens := ((usage.getField "input_tokens").bind Json.asInt).getD 0
               output_tokens := ((usage.getField "output_tokens").bind Json.asInt).getD 0
               stop_reason := stop_reason }
      | none => none
    else none
  match fromMessageDelta with
  | some u => some u
  | none =>
    if (j.getField "type").bind Json.asStr == some "message_stop" then
      match j.getField "message" with
      | some message =>
        let stop_reason := (message.getField "stop_reason").bind Json.asStr
        match message.getField "usage" with
        | some usage =>
          some { input_tokens := ((usage.getField "input_tokens").bind Json.asInt).getD 0
                 output_tokens := ((usage.getField "output_tokens").bind Json.asInt).getD 0
                 stop_reason := stop_reason }
        | none => none
      | none => none
    else none

/-- Translation of `parse_usage_from_sse`: first `data:` line whose JSON
matches wins; unparseable payloads and non-`data:` lines are skipped. -/
def parse_usage_from_sse : List SseLine → Option UsageInfo
  | [] => none
  | SseLine.dataLine (some j) :: rest =>
    match usage_of_json j with
    | some u => some u
    | none => parse_usage_from_sse rest
  | SseLine.dataLine none :: rest => parse_usage_from_sse rest
  | SseLine.otherLine :: rest => parse_usage_from_sse rest

/-- The text accumulated by the loop of `parse_text_from_sse`. -/
def text_of_lines : List SseLine → String
  | [] => ""
  | SseLine.dataLine (some j) :: rest =>
    (if (j.getField "type").bind Json.asStr == some "content_block_delta" then
      match j.getField "delta" with
      | some delta => ((delta.getField "text").bind Json.asStr).getD ""
      | none => ""
    else "") ++ text_of_lines rest
  | SseLine.dataLine none :: rest => text_of_lines rest
  | SseLine.otherLine :: rest => text_of_lines rest

/-- Translation of `parse_text_from_sse` (returns `none` when nothing was
accumulated). -/
def parse_text_from_sse (lines : List SseLine) : Option String :=
  let text := text_of_lines lines
  if text == "" then none else some text

/-- Model of the `ToolUseInfo` struct in server.rs. -/
structure ToolUseInfo where
  name : String
  input : Option Json

/-- The per-payload body of `parse_tool_use_from_sse`. -/
def tool_use_of_json (j : Json) : Option ToolUseInfo :=
  if (j.getField "type").bind Json.asStr == some "content_block_start" then
    match j.getField "content_block" with
    | some content_block =>
      if (content_block.getField "type").bind Json.asStr == some "tool_use" then
        match (content_block.getField "name").bind Json.asStr with
        | some name => some { name := name, input := content_block.getField "input" }
        | none => none
      else none
    | none => none
  else none

/-- Translation of `parse_tool_use_from_sse`. -/
def parse_tool_use_from_sse : List SseLine → Option ToolUseInfo
  | [] => none
  | SseLine.dataLine (some j) :: rest =>
    match tool_use_of_json j with
    | some t => some t
    | none => parse_tool_use_from_sse rest
  | SseLine.dataLine none :: rest => parse_tool_use_from_sse rest
  | SseLine.otherLine :: rest => parse_tool_use_from_sse rest

/-- What the wrapped stream in `proxy_handler` extracts from one response
chunk: `none` models a chunk that `std::str::from_utf8` rejects (the body
of the `if let Ok(text)` never runs, so nothing is extracted). -/
structure ChunkEffect where
  tool_use : Option ToolUseInfo
  text : Option String
  usage : Option UsageInfo

/-- Translation of the per-chunk extraction in the wrapped stream
(server.rs lines 781-986): the three parsers run on a UTF-8 chunk, and a
non-UTF-8 chunk contributes nothing. -/
def process_chunk : Option (List SseLine) → ChunkEffect
  | none => { tool_use := none, text := none, usage := none }
  | some lines =>
    { tool_use := parse_tool_use_from_sse lines
      text := parse_text_from_sse lines
      usage := parse_usage_from_sse lines }

/-! ## Command interceptor (`proxy/hooks/custom_task.rs`) -/

/-- Translation of `CustomTaskHook::parse_task_command`: find the first
occurrence of the pattern, then take the first whitespace-delimited token
after it as the task name, and slice the tail at the token's length
(note: the slice starts at the length of the token counted from the start
of `after`, exactly as `after[task_name.len()..]` does in the source). -/
def parse_task_command (message : String) : Option (String × String) :=
  let pattern : String := ">>swiftcast "
  match findSubstr pattern.data message.data with
  | none => none
  | some pos =>
    let after := message.data.drop (pos + pattern.data.length)
    match firstToken after with
    | none => none
    | some task_name =>
      some (String.mk task_name, String.mk (trimChars (after.drop task_name.length)))

/-- Translation of the user-message extraction in
`CustomTaskHook::try_intercept`: the LAST message of the array, kept only
when its role is `user`; string content, or else the first `text` item of
a content array. -/
def extract_intercept_message (body : Json) : Option String :=
  ((body.getField "messages").bind Json.asArr).bind
    (fun msgs =>
      msgs.getLast?.bind
        (fun msg =>
          if (msg.getField "role").bind Json.asStr == some "user" then
            match (msg.getField "content").bind Json.asStr with
            | some content => some content
            | none =>
              match (msg.getField "content").bind Json.asArr with
              | some content_arr =>
                content_arr.findSome?
                  (fun item =>
                    if (item.getField "type").bind Json.asStr == some "text" then
                      (item.getField "text").bind Json.asStr
                    else none)
              | none => none
          else none))

/-- The interception decision of `try_intercept`: the request is answered
locally (with some task name and argument string) exactly when the
extracted message parses as a `>>swiftcast ` command; every parsed
command leads to `intercepted: true` in the source (`list`, `reload`,
unknown-task advisories and task execution alike). -/
def try_intercept_command (body : Json) : Option (String × String) :=
  (extract_intercept_message body).bind parse_task_command

/-- Translation of `CustomTaskHook::generate_sse_response` at the event
level: the list of `(event name, data JSON)` pairs whose SSE framing the
source prints (`message_id` stands for the `msg_<24 uuid hex chars>`
value the source synthesises from a fresh uuid; `output_tokens` is
`text.len() / 4` on the UTF-8 byte length, as in the source). -/
def generate_sse_response (message_id : String) (text : String) : List (String × Json) :=
  let deltas : List (String × Json) :=
    (chunksOf 50 text.data).map
      (fun chunk =>
        ("content_block_delta",
          Json.obj [("type", Json.str "content_block_delta"),
                    ("index", Json.num 0),
                    ("delta", Json.obj [("type", Json.str "text_delta"),
                                        ("text", Json.str (String.mk chunk))])]))
  [("message_start",
      Json.obj [("type", Json.str "message_start"),
                ("message",
                  Json.obj [("id", Json.str message_id),
                            ("type", Json.str "message"),
                            ("role", Json.str "assistant"),
                            ("content", Json.arr []),
                            ("model", Json.str "custom-task"),
                            ("stop_reason", Json.null),
                            ("stop_sequence", Json.null),
                            ("usage", Json.obj [("input_tokens", Json.num 0),
                                                ("output_tokens", Json.num 0)])])]),
   ("content_block_start",
      Json.obj [("type", Json.str "content_block_start"),
                ("index", Json.num 0),
                ("content_block", Json.obj [("type", Json.str "text"),
                                            ("text", Json.str "")])])]
  ++ deltas ++
  [("content_block_stop",
      Json.obj [("type", Json.str "content_block_stop"), ("index", Json.num 0)]),
   ("message_delta",
      Json.obj [("type", Json.str "message_delta"),
                ("delta", Json.obj [("stop_reason", Json.null),
                                    ("stop_sequence", Json.null)]),
                ("usage", Json.obj [("output_tokens",
                                     Json.num (Int.ofNat (text.utf8ByteSize / 4)))])]),
   ("message_stop", Json.obj [("type", Json.str "message_stop")])]

/-- The delta texts an observer reads back from a synthesized event list
(spec-side extraction used to state the chunking property). -/
def delta_texts (events : List (String × Json)) : List String :=
  events.filterMap
    (fun ev =>
      if ev.1 == "content_block_delta" then
        ((ev.2.getField "delta").bind (fun d => d.getField "text")).bind Json.asStr
      else none)

/-! ## Compaction injector (`proxy/hooks/compaction_injector.rs`) -/

/-- Model of the `CompactionConfig` struct. -/
structure CompactionConfig where
  enabled : Bool
  summarization_instructions : Option String
  context_injection : Option String
  context_providers_enabled : Bool
deriving DecidableEq

/-- Translation of `CompactionInjectorHook::is_compaction_request`. -/
def is_compaction_request (body : String) : Bool :=
  strContains body "Your task is to create a detailed summary of the conversation"

/-- Translation of `CompactionInjectorHook::is_compacted_conversation`. -/
def is_compacted_conversation (body : String) : Bool :=
  strContains body "This session is being continued from a previous conversation that ran out of context"

/-- Translation of `inject_summarization_instructions`: insert the block
at the position of the marker, or append the (differently headed)
fallback block when the marker is absent. -/
def inject_summarization_instructions (body instructions : String) : String :=
  let marker : String := "Please provide your summary based on the conversation so far"
  match findSubstr marker.data body.data with
  | some pos =>
    let injection :=
      "\n\n## Additional Summarization Instructions (IMPORTANT - Must be included in summary):\n"
        ++ instructions ++ "\n\n"
    String.mk (body.data.take pos ++ injection.data ++ body.data.drop pos)
  | none => body ++ "\n\n## Additional Instructions:\n" ++ instructions

/-- Translation of `inject_context`: splice provider context and the
persistent-context block immediately after the continuation marker. -/
def inject_context (body : String) (static_context provider_context : Option String) : String :=
  let marker : String := "This session is being continued from a previous conversation that ran out of context."
  match findSubstr marker.data body.data with
  | some pos =>
    let after_marker := pos + marker.data.length
    let injection₁ : String :=
      match provider_context with
      | some ctx => if !(ctx == "") then "\n\n" ++ ctx else ""
      | none => ""
    let injection₂ : String :=
      match static_context with
      | some ctx =>
        if !(ctx == "") then "\n\n## Persistent Context (Always Remember):\n" ++ ctx ++ "\n"
        else ""
      | none => ""
    let injection := injection₁ ++ injection₂
    if injection == "" then body
    else String.mk (body.data.take after_marker ++ injection.data ++ body.data.drop after_marker)
  | none => body

/-- Translation of `CompactionInjectorHook::modify_request_body`.  The
`provider_context_fetch` argument stands for the value of
`fetch_combined_context()` guarded by `provider_count() > 0` (the hook
only consults it on the compacted-conversation path, and only when
`context_providers_enabled`). -/
def modify_request_body (config : CompactionConfig) (provider_context_fetch : Option String)
    (body : String) : Option String :=
  if !config.enabled then none
  else
    match (if is_compaction_request body then config.summarization_instructions else none) with
    | some instructions => some (inject_summarization_instructions body instructions)
    | none =>
      if is_compacted_conversation body then
        let static_context := config.context_injection
        let provider_context :=
          if config.context_providers_enabled then provider_context_fetch else none
        if static_context.isSome || provider_context.isSome then
          some (inject_context body static_context provider_context)
        else none
      else none

/-! ## Step tracker (`proxy/step_tracker.rs`) -/

/-- Model of the `StepUpdateData` webhook payload. -/
structure StepUpdateData where
  step_type : String
  status : String
  progress : Option Int
  message : Option String
  tool_name : Option String
deriving DecidableEq

/-- Model of the two per-session hash maps of `StepTracker` as
association lists. -/
structure TrackerState where
  current_steps : List (String × String)
  completed_steps : List (String × List String)
deriving DecidableEq

/-- Association-list lookup, model of `HashMap::get`. -/
def alookup (m : List (String × α)) (key : String) : Option α :=
  (m.find? (fun kv => kv.1 == key)).map (fun kv => kv.2)

/-- Association-list insert/replace, model of `HashMap::insert`. -/
def ainsert (m : List (String × α)) (key : String) (v : α) : List (String × α) :=
  (key, v) :: m.filter (fun kv => kv.1 != key)

/-- Translation of `StepTracker::tool_to_step_type`. -/
def tool_to_step_type (tool_name : String) : Option String :=
  match tool_name with
  | "Read" | "Glob" | "Grep" | "WebFetch" | "WebSearch" => some "ANALYSIS"
  | "EnterPlanMode" | "ExitPlanMode" | "TaskCreate" | "TaskUpdate" | "TaskList" | "TaskGet" =>
    some "DESIGN"
  | "Edit" | "Write" | "NotebookEdit" => some "IMPLEMENTATION"
  | "Bash" => some "VERIFICATION"
  | "AskUserQuestion" | "Skill" => none
  | "Task" | "TaskOutput" | "TaskStop" => none
  | _ => none

/-- Translation of `StepTracker::is_test_command`. -/
def is_test_command (input : Option Json) : Bool :=
  match input with
  | some input =>
    match (input.getField "command").bind Json.asStr with
    | some command =>
      let cmd_lower := strToLower command
      strContains cmd_lower "test" || strContains cmd_lower "jest"
        || strContains cmd_lower "pytest" || strContains cmd_lower "npm run test"
        || strContains cmd_lower "./gradlew test" || strContains cmd_lower "mvn test"
        || strContains cmd_lower "cargo test"
    | none => false
  | none => false

/-- The step-type resolution at the top of `process_tool_use` (the
special handling of `Bash`, else `tool_to_step_type`). -/
def step_type_of_tool (tool_name : String) (tool_input : Option Json) : Option String :=
  if tool_name == "Bash" then
    if is_test_command tool_input then some "VERIFICATION" else some "IMPLEMENTATION"
  else tool_to_step_type tool_name

/-- Translation of `StepTracker::process_tool_use`; returns the new
tracker state and the pair `(previous_step_completed, new_step_in_progress)`. -/
def process_tool_use (st : TrackerState) (session_id tool_name : String)
    (tool_input : Option Json) :
    TrackerState × (Option StepUpdateData × Option StepUpdateData) :=
  match step_type_of_tool tool_name tool_input with
  | none => (st, (none, none))
  | some step_type =>
    let current := alookup st.current_steps session_id
    if current == some step_type then
      (st,
        (none,
          some { step_type := step_type, status := "IN_PROGRESS", progress := none
                 message := some ("Using " ++ tool_name), tool_name := some tool_name }))
    else
      let previous := current
      let st₂ := { st with current_steps := ainsert st.current_steps session_id step_type }
      let completed_update :=
        previous.map
          (fun prev_step =>
            { step_type := prev_step, status := "COMPLETED", progress := some 100
              message := some "Step completed", tool_name := none })
      let new_update :=
        some { step_type := step_type, status := "IN_PROGRESS", progress := none
               message := some ("Started " ++ strToLower step_type ++ " with " ++ tool_name)
               tool_name := some tool_name }
      (st₂, (completed_update, new_update))

/-- Translation of `StepTracker::complete_current_step` (the only place
that pushes onto the completed list). -/
def complete_current_step (st : TrackerState) (session_id : String) :
    TrackerState × Option StepUpdateData :=
  match alookup st.current_steps session_id with
  | some current_step =>
    let st₂ : TrackerState :=
      { current_steps := st.current_steps.filter (fun kv => kv.1 != session_id)
        completed_steps :=
          ainsert st.completed_steps session_id
            ((alookup st.completed_steps session_id).getD [] ++ [current_step]) }
    (st₂,
      some { step_type := current_step, status := "COMPLETED", progress := some 100
             message := some "Step completed", tool_name := none })
  | none => (st, none)

/-- Translation of `StepTracker::get_completed_steps`. -/
def get_completed_steps (st : TrackerState) (session_id : String) : List String :=
  (alookup st.completed_steps session_id).getD []

/-! ## Persistent store (`storage/database.rs`) -/

/-- Model of one row of the `usage_logs` table as `log_usage` inserts it. -/
structure UsageLogRow where
  timestamp : Int
  account_id : String
  model : String
  input_tokens : Int
  output_tokens : Int
  cost_usd : Rat
  duration_ms : Int
  status_code : Int
  session_id : Option String
deriving DecidableEq

/-- Translation of `Database::log_usage`: the single INSERT with the
literal values `0, 0, 200` for `cost_usd`, `duration_ms`, `status_code`
(`timestamp` is the caller clock `chrono::Utc::now().timestamp()`,
passed here as an argument). -/
def log_usage (table : List UsageLogRow) (timestamp : Int) (account_id model : String)
    (input_tokens output_tokens : Int) (session_id : Option String) : List UsageLogRow :=
  table ++ [{ timestamp := timestamp, account_id := account_id, model := model
              input_tokens := input_tokens, output_tokens := output_tokens
              cost_usd := 0, duration_ms := 0, status_code := 200
              session_id := session_id }]

/-- Model of one row of the `accounts` table. -/
structure Account where
  id : String
  name : String
  base_url : String
  created_at : Int
  is_active : Bool
deriving DecidableEq

/-- Translation of the first statement of `Database::switch_account`:
`UPDATE accounts SET is_active = 0`. -/
def deactivate_all_accounts (accounts : List Account) : List Account :=
  accounts.map (fun a => { a with is_active := false })

/-- Translation of the second statement of `Database::switch_account`:
`UPDATE accounts SET is_active = 1 WHERE id = ?`. -/
def activate_account (accounts : List Account) (account_id : String) : List Account :=
  accounts.map (fun a => if a.id == account_id then { a with is_active := true } else a)

/-- Translation of `Database::switch_account`: both UPDATEs in order;
the function returns `Ok(())` regardless of how many rows either
statement touched (an UPDATE matching zero rows is not an error). -/
def switch_account (accounts : List Account) (account_id : String) :
    Except String (List Account) :=
  Except.ok (activate_account (deactivate_all_accounts accounts) account_id)

/-- Model of one row of the `session_config` table. -/
structure SessionConfigRow where
  session_id : String
  account_id : String
  model_override : Option String
  last_message : Option String
  created_at : Int
  last_activity_at : Int
deriving DecidableEq

/-- Translation of `Database::update_session_activity`: touch
`last_activity_at` on the row with the given session id, and also set
`last_message` when one was supplied. -/
def update_session_activity (table : List SessionConfigRow) (now : Int)
    (session_id : String) (last_message : Option String) : List SessionConfigRow :=
  table.map
    (fun r =>
      if r.session_id == session_id then
        match last_message with
        | some msg => { r with last_activity_at := now, last_message := some msg }
        | none => { r with last_activity_at := now }
      else r)

/-! ## General lemmas about the string and list helpers -/

theorem chunksOf_flatten (n : Nat) (l : List α) : (chunksOf n l).flatten = l := by
  induction l using chunksOf.induct n with
  | case1 => simp [chunksOf]
  | case2 x xs ih =>
    simp only [chunksOf, List.flatten_cons, ih, List.cons_append]
    rw [List.take_append_drop]

theorem chunksOf_length_le (n : Nat) (hn : 1 ≤ n) (l : List α) :
    ∀ c ∈ chunksOf n l, c.length ≤ n := by
  induction l using chunksOf.induct n with
  | case1 => simp [chunksOf]
  | case2 x xs ih =>
    intro c hc
    simp only [chunksOf, List.mem_cons] at hc
    rcases hc with rfl | hc
    · simp only [List.length_cons]
      have := List.length_take_le (n - 1) xs
      omega
    · exact ih c hc

theorem findSubstr_some (pat : List Char) :
    ∀ (hay : List Char) (n : Nat), findSubstr pat hay = some n →
      hay = hay.take n ++ pat ++ hay.drop (n + pat.length) := by
  intro hay
  induction hay with
  | nil =>
    intro n h
    simp only [findSubstr] at h
    by_cases hp : pat.isPrefixOf ([] : List Char)
    · rw [if_pos hp] at h
      obtain rfl : n = 0 := by simpa using h.symm
      rw [List.isPrefixOf_iff_prefix, List.prefix_nil] at hp
      simp [hp]
    · rw [if_neg hp] at h
      simp at h
  | cons c rest ih =>
    intro n h
    simp only [findSubstr] at h
    by_cases hp : pat.isPrefixOf (c :: rest)
    · rw [if_pos hp] at h
      obtain rfl : n = 0 := by simpa using h.symm
      rw [List.isPrefixOf_iff_prefix] at hp
      obtain ⟨t, ht⟩ := hp
      simp [← ht]
    · rw [if_neg hp] at h
      simp only [Option.map_eq_some'] at h
      obtain ⟨m, hm, rfl⟩ := h
      have hrest := ih m hm
      calc c :: rest
          = c :: (rest.take m ++ pat ++ rest.drop (m + pat.length)) := by rw [← hrest]
        _ = (c :: rest).take (m + 1) ++ pat ++ (c :: rest).drop (m + 1 + pat.length) := by
            simp only [List.take_succ_cons, List.cons_append]
            congr 2
            have h2 : m + 1 + pat.length = (m + pat.length) + 1 := by omega
            rw [h2, List.drop_succ_cons]

theorem findSubstr_prefix (pat x : List Char) :
    findSubstr pat (pat ++ x) = some 0 := by
  have hp : pat.isPrefixOf (pat ++ x) = true := by
    rw [List.isPrefixOf_iff_prefix]
    exact List.prefix_append pat x
  cases h : pat ++ x with
  | nil =>
    rw [h] at hp
    simp only [findSubstr]
    rw [if_pos hp]
  | cons c rest =>
    rw [h] at hp
    simp only [findSubstr]
    rw [if_pos hp]

theorem splitChar_head (sep : Char) (cs : List Char) :
    (splitChar sep cs).head? = some (cs.takeWhile (fun c => c ≠ sep)) := by
  induction cs with
  | nil => simp [splitChar]
  | cons c rest ih =>
    by_cases h : c = sep
    · subst h
      simp [splitChar, List.takeWhile_cons]
    · simp only [splitChar, if_neg h]
      cases hrec : splitChar sep rest with
      | nil => rw [hrec] at ih; simp at ih
      | cons t ts =>
        rw [hrec] at ih
        simp only [List.head?, Option.some.injEq] at ih
        simp only [List.head?, List.takeWhile_cons, Option.some.injEq]
        rw [if_pos (by simp [h])]
        rw [ih]

theorem takeWhile_append_of_forall (p : α → Bool) (l₁ l₂ : List α)
    (h : ∀ a ∈ l₁, p a = true) :
    (l₁ ++ l₂).takeWhile p = l₁ ++ l₂.takeWhile p := by
  induction l₁ with
  | nil => simp
  | cons a l ih =>
    simp only [List.cons_append, List.takeWhile]
    rw [h a (by simp)]
    simp only [List.cons.injEq, true_and]
    exact ih (fun a ha => h a (by simp [ha]))

theorem string_mk_data (s : String) : String.mk s.data = s := rfl

theorem findSubstr_bound (pat : List Char) :
    ∀ (hay : List Char) (n : Nat), findSubstr pat hay = some n →
      n + pat.length ≤ hay.length := by
  intro hay
  induction hay with
  | nil =>
    intro n h
    simp only [findSubstr] at h
    by_cases hp : pat.isPrefixOf ([] : List Char)
    · rw [if_pos hp] at h
      obtain rfl : n = 0 := by simpa using h.symm
      rw [List.isPrefixOf_iff_prefix, List.prefix_nil] at hp
      simp [hp]
    · rw [if_neg hp] at h
      simp at h
  | cons c rest ih =>
    intro n h
    simp only [findSubstr] at h
    by_cases hp : pat.isPrefixOf (c :: rest)
    · rw [if_pos hp] at h
      obtain rfl : n = 0 := by simpa using h.symm
      rw [List.isPrefixOf_iff_prefix] at hp
      have := hp.length_le
      simpa using this
    · rw [if_neg hp] at h
      simp only [Option.map_eq_some'] at h
      obtain ⟨m, hm, rfl⟩ := h
      have := ih m hm
      simp only [List.length_cons]
      omega

theorem trimChars_cons_of_ws (c : Char) (l : List Char)
    (h : c.isWhitespace = true) : trimChars (c :: l) = trimChars l := by
  simp [trimChars, List.dropWhile_cons_of_pos h]

/-! ## C9: usage-log rows carry constant status, cost and duration -/

/-- C9: every row inserted by `log_usage` is appended to the table and
records `status_code = 200`, `cost_usd = 0`, `duration_ms = 0`, for all
inputs; only the timestamp, account id, model, the two token counts and
the optional session id come from the caller. -/
theorem log_usage_constant_fields (table : List UsageLogRow) (timestamp : Int)
    (account_id model : String) (input_tokens output_tokens : Int)
    (session_id : Option String) :
    ∃ row : UsageLogRow,
      log_usage table timestamp account_id model input_tokens output_tokens session_id =
        table ++ [row] ∧
      row.status_code = 200 ∧ row.cost_usd = 0 ∧ row.duration_ms = 0 ∧
      row.timestamp = timestamp ∧ row.account_id = account_id ∧ row.model = model ∧
      row.input_tokens = input_tokens ∧ row.output_tokens = output_tokens ∧
      row.session_id = session_id := by
  refine ⟨_, rfl, rfl, rfl, rfl, rfl, rfl, rfl, rfl, rfl, rfl⟩

/-! ## C10: switch_account always succeeds and preserves at-most-one-active -/

/-- C10: `switch_account` first deactivates every row and then activates
the row whose id matches; it returns success for every id (an UPDATE
matching zero rows is not an error), only a row with the requested id can
end up active, with unique ids (the `id` column is the primary key) at
most one row is active afterwards, and for an unknown id the final state
has zero active accounts. -/
theorem switch_account_ok_and_invariant (accounts : List Account) (account_id : String) :
    ∃ updated : List Account,
      switch_account accounts account_id = Except.ok updated ∧
      updated.map Account.id = accounts.map Account.id ∧
      (∀ a ∈ updated, a.is_active = true → a.id = account_id) ∧
      ((accounts.map Account.id).Nodup →
        (updated.filter (fun a => a.is_active)).length ≤ 1) ∧
      ((∀ a ∈ accounts, a.id ≠ account_id) → ∀ a ∈ updated, a.is_active = false) := by
  refine ⟨activate_account (deactivate_all_accounts accounts) account_id, rfl, ?_, ?_, ?_, ?_⟩
  · simp only [activate_account, deactivate_all_accounts, List.map_map]
    apply List.map_congr_left
    intro a _
    simp only [Function.comp_apply]
    split <;> rfl
  · intro a ha hact
    simp only [activate_account, deactivate_all_accounts, List.map_map, List.mem_map] at ha
    obtain ⟨b, _, rfl⟩ := ha
    by_cases h : b.id == account_id
    · simp only [Function.comp_apply, h, if_pos rfl]
      simpa using h
    · simp only [Function.comp_apply] at hact
      rw [if_neg (by simpa using h)] at hact
      simp at hact
  · intro hnodup
    have hlen : ∀ l : List Account,
        ((activate_account (deactivate_all_accounts l) account_id).filter
          (fun a => a.is_active)).length = l.countP (fun a => a.id == account_id) := by
      intro l
      induction l with
      | nil => rfl
      | cons b t ih =>
        by_cases hb : b.id = account_id
        · simp only [deactivate_all_accounts, activate_account, List.map_cons, List.map_map,
            List.filter_cons, List.countP_cons, beq_iff_eq] at ih ⊢
          simp [hb, ih]
        · simp only [deactivate_all_accounts, activate_account, List.map_cons, List.map_map,
            List.filter_cons, List.countP_cons, beq_iff_eq] at ih ⊢
          simp [hb, ih]
    rw [hlen]
    have : accounts.countP (fun a => a.id == account_id) =
        (accounts.map Account.id).count account_id := by
      rw [List.count_eq_countP, List.countP_map]
      rfl
    rw [this]
    exact List.nodup_iff_count_le_one.mp hnodup account_id
  · intro hnone a ha
    simp only [activate_account, deactivate_all_accounts, List.map_map, List.mem_map] at ha
    obtain ⟨b, hb, rfl⟩ := ha
    have : ¬(b.id == account_id) = true := by
      simpa using hnone b hb
    simp only [Function.comp_apply]
    rw [if_neg this]

/-- Witness for C10 at a concrete store: switching to the unknown id
`"zz"` on a one-account table succeeds, leaves at most one account
active, in fact zero. -/
theorem switch_account_witness :
    ∃ updated : List Account,
      switch_account [{ id := "a1", name := "n", base_url := "u", created_at := 0,
                        is_active := true }] "zz" = Except.ok updated ∧
      (updated.filter (fun a => a.is_active)).length ≤ 1 ∧
      ∀ a ∈ updated, a.is_active = false := by
  obtain ⟨u, h1, _, _, h4, h5⟩ :=
    switch_account_ok_and_invariant
      [{ id := "a1", name := "n", base_url := "u", created_at := 0, is_active := true }] "zz"
  exact ⟨u, h1, h4 (by decide), h5 (by decide)⟩

/-! ## C2: session-id derivation -/

/-- C2 counterexample: the claim says a session id that is an empty
string is treated as no session id, but the handler never tests for
emptiness — a present `x-session-id` header with the empty value yields
the session id `some ""`, which downstream is treated as a session
(`if let Some(ref sid)` takes it). -/
theorem extract_session_id_empty_counterexample :
    ¬ (extract_session_id [("x-session-id", "")] = none) := by decide

/-- C2 (amended): the session id is derived by the first matching rule
in order — `x-session-id`, else `x-request-id`, else the prefix of
`sentry-trace` before the first `-` (a value without `-` passes through
whole); when none of the three headers is present there is no session
id.  An empty header value is NOT special-cased: it yields the empty
string as the session id. -/
theorem extract_session_id_rules (headers : List (String × String)) :
    (∀ v, header_value headers "x-session-id" = some v →
      extract_session_id headers = some v) ∧
    (header_value headers "x-session-id" = none →
      ∀ v, header_value headers "x-request-id" = some v →
        extract_session_id headers = some v) ∧
    (header_value headers "x-session-id" = none →
      header_value headers "x-request-id" = none →
      ∀ v, header_value headers "sentry-trace" = some v →
        extract_session_id headers =
          some (String.mk (v.data.takeWhile (fun c => c ≠ '-')))) ∧
    (header_value headers "x-session-id" = none →
      header_value headers "x-request-id" = none →
      header_value headers "sentry-trace" = none →
      extract_session_id headers = none) := by
  refine ⟨?_, ?_, ?_, ?_⟩
  · intro v h
    simp [extract_session_id, h]
  · intro h1 v h2
    simp [extract_session_id, h1, h2]
  · intro h1 h2 v h3
    simp only [extract_session_id, h1, h2, h3, Option.none_orElse, Option.some_bind]
    rw [splitChar_head]
    rfl
  · intro h1 h2 h3
    simp [extract_session_id, h1, h2, h3]

/-- Witness for C2 at concrete headers: the second and third rules fire
as stated. -/
theorem extract_session_id_rules_witness :
    extract_session_id [("x-request-id", "rid")] = some "rid" ∧
    extract_session_id [("sentry-trace", "abc123-span")] = some "abc123" := by
  constructor
  · exact (extract_session_id_rules [("x-request-id", "rid")]).2.1 (by decide) "rid" (by decide)
  · have h := (extract_session_id_rules [("sentry-trace", "abc123-span")]).2.2.1
      (by decide) (by decide) "abc123-span" (by decide)
    rw [h]
    decide

/-! ## C1: upstream authentication-header policy -/

/-- C1 counterexample: for a non-Anthropic upstream whose stored API key
is the empty string (`create_account` accepts an empty key and
`get_api_key` returns it), the handler strips the inbound auth headers
but — because of the `!api_key.is_empty()` guard — attaches nothing, so
the outbound auth header set is empty rather than
`{x-api-key: <stored key>}` as the claim states. -/
theorem upstream_auth_empty_key_counterexample :
    auth_headers (build_upstream_headers "https://api.z.ai/v1" ""
      [("authorization", "Bearer T")]) = [] ∧
    ([] : List (String × String)) ≠ [("x-api-key", "")] := by
  exact ⟨by decide, by decide⟩

/-- C1 (amended): when the base URL contains `api.anthropic.com` the
inbound auth headers pass through unchanged (every outbound header is an
inbound header, so the stored key is never attached); otherwise the
inbound auth headers are stripped, and the outbound auth header set is
exactly `{x-api-key: <stored key>}` when the stored key is non-empty and
empty when the stored key is the empty string — never both forms at
once. -/
theorem upstream_auth_header_policy (base_url api_key : String)
    (original : List (String × String)) :
    (is_anthropic base_url = true →
      auth_headers (build_upstream_headers base_url api_key original) =
        auth_headers original ∧
      ∀ kv ∈ build_upstream_headers base_url api_key original, kv ∈ original) ∧
    (is_anthropic base_url = false →
      auth_headers (build_upstream_headers base_url api_key original) =
        (if api_key == "" then [] else [("x-api-key", api_key)])) := by
  have hfwd_true : ∀ kv : String × String,
      (strToLower kv.1 == "x-api-key" || strToLower kv.1 == "authorization") = true →
      forward_header true kv = true := by
    intro kv h
    rw [Bool.or_eq_true, beq_iff_eq, beq_iff_eq] at h
    simp only [forward_header]
    rcases h with h | h <;> rw [h] <;> decide
  have hfwd_false : ∀ kv : String × String,
      (strToLower kv.1 == "x-api-key" || strToLower kv.1 == "authorization") = true →
      forward_header false kv = false := by
    intro kv h
    rw [Bool.or_eq_true, beq_iff_eq, beq_iff_eq] at h
    simp only [forward_header]
    rcases h with h | h <;> rw [h] <;> decide
  constructor
  · intro h
    have hbuild : build_upstream_headers base_url api_key original =
        original.filter (forward_header true) := by
      simp [build_upstream_headers, h]
    constructor
    · rw [hbuild]
      simp only [auth_headers, List.filter_filter]
      apply List.filter_congr
      intro kv _
      by_cases ha : (strToLower kv.1 == "x-api-key" || strToLower kv.1 == "authorization") = true
      · rw [ha, hfwd_true kv ha]
        rfl
      · rw [Bool.not_eq_true] at ha
        rw [ha]
        simp
    · intro kv hkv
      rw [hbuild] at hkv
      exact (List.mem_filter.mp hkv).1
  · intro h
    have hstripped : auth_headers (original.filter (forward_header false)) = [] := by
      simp only [auth_headers, List.filter_filter]
      rw [List.filter_eq_nil_iff]
      intro kv _
      by_cases ha : (strToLower kv.1 == "x-api-key" || strToLower kv.1 == "authorization") = true
      · rw [ha, hfwd_false kv ha]
        simp
      · rw [Bool.not_eq_true] at ha
        rw [ha]
        simp
    by_cases hk : (api_key == "") = true
    · have hbuild : build_upstream_headers base_url api_key original =
          original.filter (forward_header false) := by
        simp [build_upstream_headers, h, hk]
      rw [hbuild, hstripped, if_pos hk]
    · have hbuild : build_upstream_headers base_url api_key original =
          original.filter (forward_header false) ++ [("x-api-key", api_key)] := by
        rw [Bool.not_eq_true] at hk
        simp [build_upstream_headers, h, hk]
      rw [hbuild]
      rw [Bool.not_eq_true] at hk
      rw [if_neg (by simp [hk])]
      have hx : (strToLower "x-api-key" == "x-api-key"
          || strToLower "x-api-key" == "authorization") = true := by decide
      simp only [auth_headers, List.filter_append]
      simp only [auth_headers] at hstripped
      rw [hstripped]
      simp [hx]

/-- Witness for C1 at concrete inputs: the Anthropic upstream forwards
the inbound `authorization` header, the non-Anthropic upstream replaces
it with the stored key. -/
theorem upstream_auth_header_policy_witness :
    auth_headers (build_upstream_headers "https://api.anthropic.com" "k1"
      [("authorization", "Bearer T"), ("host", "h")]) =
      auth_headers [("authorization", "Bearer T"), ("host", "h")] ∧
    auth_headers (build_upstream_headers "https://api.z.ai/v1" "k1"
      [("authorization", "Bearer T")]) =
      (if ("k1" : String) == "" then [] else [("x-api-key", "k1")]) := by
  constructor
  · exact ((upstream_auth_header_policy "https://api.anthropic.com" "k1"
      [("authorization", "Bearer T"), ("host", "h")]).1 (by decide)).1
  · exact (upstream_auth_header_policy "https://api.z.ai/v1" "k1"
      [("authorization", "Bearer T")]).2 (by decide)

/-! ## C8: last-message excerpt truncation -/

/-- C8 counterexample: a 101-character message is truncated to its first
97 characters followed by THREE ASCII dots `"..."` (the source formats
`"{}..."`), not by the single ellipsis character `…` that the claim
names; the source also counts `chars()` (Unicode scalar values), not
grapheme clusters. -/
theorem truncate_message_counterexample :
    truncate_message (String.mk (List.replicate 101 'a')) =
      String.mk (List.replicate 97 'a') ++ "..." ∧
    truncate_message (String.mk (List.replicate 101 'a')) ≠
      String.mk (List.replicate 97 'a') ++ "…" := by
  constructor <;> decide

/-- C8 (amended): the excerpt equals the last user-role message text
unchanged when that text is at most 100 characters (Unicode scalar
values, as counted by `chars().count()`); a longer text becomes its
first 97 characters followed by the three ASCII dots `"..."`, so the
excerpt is always at most 100 characters; `parse_request_info` applies
exactly this truncation to the extracted text, and
`update_session_activity` stores the supplied excerpt verbatim on the
row with the matching session id. -/
theorem excerpt_truncation (s : String) :
    (s.data.length ≤ 100 → truncate_message s = s) ∧
    (100 < s.data.length →
      truncate_message s = String.mk (s.data.take 97) ++ "..." ∧
      (truncate_message s).data.length = 100) ∧
    (truncate_message s).data.length ≤ 100 ∧
    (∀ json t, extract_last_user_text json = some t →
      (parse_request_info (some json)).last_message = some (truncate_message t)) ∧
    (∀ (table : List SessionConfigRow) (now : Int) (sid : String) (m : String)
        (r : SessionConfigRow),
      r ∈ update_session_activity table now sid (some m) → r.session_id = sid →
      r.last_message = some m) := by
  have hgt : 100 < s.data.length →
      truncate_message s = String.mk (s.data.take 97) ++ "..." ∧
      (truncate_message s).data.length = 100 := by
    intro hlen
    have heq : truncate_message s = String.mk (s.data.take 97) ++ "..." := by
      simp only [truncate_message]
      rw [if_pos (by omega)]
    refine ⟨heq, ?_⟩
    rw [heq]
    have h97 : (s.data.take 97).length = 97 := by
      rw [List.length_take]
      omega
    simp only [String.data_append, List.length_append, h97]
    simp
  refine ⟨?_, hgt, ?_, ?_, ?_⟩
  · intro hlen
    simp only [truncate_message]
    rw [if_neg (by omega)]
  · by_cases hlen : 100 < s.data.length
    · rw [(hgt hlen).2]
    · have : truncate_message s = s := by
        simp only [truncate_message]
        rw [if_neg (by omega)]
      rw [this]
      omega
  · intro json t h
    simp [parse_request_info, h]
  · intro table now sid m r hr hsid
    simp only [update_session_activity, List.mem_map] at hr
    obtain ⟨x, hx, rfl⟩ := hr
    by_cases hxs : (x.session_id == sid) = true
    · rw [if_pos hxs]
    · rw [Bool.not_eq_true] at hxs
      rw [if_neg (by simp [hxs])] at hsid ⊢
      rw [hsid] at hxs
      simp at hxs

/-- Witness for C8 at concrete messages: a short message is unchanged, a
150-character one is cut at exactly 100. -/
theorem excerpt_truncation_witness :
    truncate_message "hi" = "hi" ∧
    (truncate_message (String.mk (List.replicate 150 'b'))).data.length = 100 := by
  constructor
  · exact (excerpt_truncation "hi").1 (by decide)
  · exact ((excerpt_truncation (String.mk (List.replicate 150 'b'))).2.1 (by simp)).2

/-! ## C3: SSE usage extraction and drop policies -/

/-- C3 counterexample: a `data:` line whose JSON is a `message_delta`
carrying `delta.stop_reason` but NO top-level `usage` field produces no
Usage emission at all — the source returns only from inside
`if let Some(usage) = json.get("usage")` — contradicting the claim that
`delta.stop_reason` and/or `usage` suffices. -/
theorem parse_usage_stop_reason_only_counterexample :
    parse_usage_from_sse
      [SseLine.dataLine (some (Json.obj
        [("type", Json.str "message_delta"),
         ("delta", Json.obj [("stop_reason", Json.str "end_turn")])]))] = none := by
  decide

/-- C3 (amended): a `message_delta` line yields a
Usage(input_tokens, output_tokens, stop_reason?) emission exactly when it
carries a top-level `usage` field — `delta.stop_reason` rides along but
alone causes no emission; a `data:` line whose JSON fails to parse is
skipped, contributing neither usage nor text; and a chunk that is not
valid UTF-8 contributes no tool-use, no text and no usage. -/
theorem sse_usage_extraction (j usage : Json) (rest : List SseLine) :
    ((j.getField "type").bind Json.asStr = some "message_delta" →
      j.getField "usage" = some usage →
      parse_usage_from_sse (SseLine.dataLine (some j) :: rest) =
        some { input_tokens := ((usage.getField "input_tokens").bind Json.asInt).getD 0
               output_tokens := ((usage.getField "output_tokens").bind Json.asInt).getD 0
               stop_reason :=
                 ((j.getField "delta").bind (fun d => d.getField "stop_reason")).bind
                   Json.asStr }) ∧
    ((j.getField "type").bind Json.asStr = some "message_delta" →
      j.getField "usage" = none →
      parse_usage_from_sse (SseLine.dataLine (some j) :: rest) =
        parse_usage_from_sse rest) ∧
    (parse_usage_from_sse (SseLine.dataLine none :: rest) =
      parse_usage_from_sse rest ∧
     parse_text_from_sse (SseLine.dataLine none :: rest) =
      parse_text_from_sse rest) ∧
    (process_chunk none = { tool_use := none, text := none, usage := none }) := by
  refine ⟨?_, ?_, ⟨rfl, rfl⟩, rfl⟩
  · intro htype husage
    simp [parse_usage_from_sse, usage_of_json, htype, husage]
  · intro htype husage
    simp [parse_usage_from_sse, usage_of_json, htype, husage]

/-- Witness for C3 at the concrete `message_delta` of the spec's
end-to-end scenario 3: usage `(12, 1)` with `stop_reason = "end_turn"`
is emitted. -/
theorem sse_usage_extraction_witness :
    parse_usage_from_sse
      [SseLine.dataLine (some (Json.obj
        [("type", Json.str "message_delta"),
         ("delta", Json.obj [("stop_reason", Json.str "end_turn")]),
         ("usage", Json.obj [("input_tokens", Json.num 12),
                             ("output_tokens", Json.num 1)])]))] =
      some { input_tokens := 12, output_tokens := 1, stop_reason := some "end_turn" } := by
  have h := (sse_usage_extraction
    (Json.obj
      [("type", Json.str "message_delta"),
       ("delta", Json.obj [("stop_reason", Json.str "end_turn")]),
       ("usage", Json.obj [("input_tokens", Json.num 12), ("output_tokens", Json.num 1)])])
    (Json.obj [("input_tokens", Json.num 12), ("output_tokens", Json.num 1)])
    []).1 rfl rfl
  rw [h]
  decide

/-! ## C7: step tracker phase transitions -/

/-- Lookup after insert on the association-list model of `HashMap`. -/
theorem alookup_ainsert (m : List (String × α)) (k : String) (v : α) :
    alookup (ainsert m k v) k = some v := by
  simp [alookup, ainsert]

/-- C7 counterexample: a phase change during `process_tool_use` emits
COMPLETED for the previous phase but does NOT record it in the session's
completed list — only `complete_current_step` (at stream end) pushes onto
that list.  After `Read` (ANALYSIS) then `Edit` (IMPLEMENTATION) the
completed list is still empty. -/
theorem step_tracker_completed_list_counterexample :
    (let st₁ := (process_tool_use { current_steps := [], completed_steps := [] }
        "s" "Read" none).1
     let r₂ := process_tool_use st₁ "s" "Edit" none
     r₂.2.1 = some { step_type := "ANALYSIS", status := "COMPLETED", progress := some 100,
                     message := some "Step completed", tool_name := none } ∧
     get_completed_steps r₂.1 "s" = []) := by
  decide

/-- C7 (amended): a tool mapping to the session's current phase emits
only IN_PROGRESS with no state change; a tool mapping to a different
phase emits COMPLETED (progress 100) for the previous phase and
IN_PROGRESS for the new phase and updates only the current-phase map —
the completed list is NOT touched by tool-use processing; a first
tracked tool emits only IN_PROGRESS; an untracked tool emits nothing;
and it is `complete_current_step` that appends the current phase to the
completed list. -/
theorem step_tracker_transition (st : TrackerState) (sid tool : String)
    (input : Option Json) (step prev : String) :
    (step_type_of_tool tool input = some step →
      alookup st.current_steps sid = some step →
      process_tool_use st sid tool input =
        (st, (none,
          some { step_type := step, status := "IN_PROGRESS", progress := none
                 message := some ("Using " ++ tool), tool_name := some tool }))) ∧
    (step_type_of_tool tool input = some step →
      alookup st.current_steps sid = some prev → prev ≠ step →
      process_tool_use st sid tool input =
        ({ st with current_steps := ainsert st.current_steps sid step },
          (some { step_type := prev, status := "COMPLETED", progress := some 100
                  message := some "Step completed", tool_name := none },
           some { step_type := step, status := "IN_PROGRESS", progress := none
                  message := some ("Started " ++ strToLower step ++ " with " ++ tool)
                  tool_name := some tool })) ∧
      get_completed_steps (process_tool_use st sid tool input).1 sid =
        get_completed_steps st sid) ∧
    (step_type_of_tool tool input = some step →
      alookup st.current_steps sid = none →
      process_tool_use st sid tool input =
        ({ st with current_steps := ainsert st.current_steps sid step },
          (none,
           some { step_type := step, status := "IN_PROGRESS", progress := none
                  message := some ("Started " ++ strToLower step ++ " with " ++ tool)
                  tool_name := some tool }))) ∧
    (step_type_of_tool tool input = none →
      process_tool_use st sid tool input = (st, (none, none))) ∧
    (alookup st.current_steps sid = some step →
      get_completed_steps (complete_current_step st sid).1 sid =
        get_completed_steps st sid ++ [step] ∧
      (complete_current_step st sid).2 =
        some { step_type := step, status := "COMPLETED", progress := some 100
               message := some "Step completed", tool_name := none }) := by
  refine ⟨?_, ?_, ?_, ?_, ?_⟩
  · intro hstep hcur
    simp [process_tool_use, hstep, hcur]
  · intro hstep hcur hne
    constructor
    · simp [process_tool_use, hstep, hcur, hne]
    · simp [process_tool_use, hstep, hcur, hne, get_completed_steps]
  · intro hstep hcur
    simp [process_tool_use, hstep, hcur]
  · intro hstep
    simp [process_tool_use, hstep]
  · intro hcur
    constructor
    · simp [complete_current_step, hcur, get_completed_steps, alookup_ainsert]
    · simp [complete_current_step, hcur]

/-- Witness for C7 at a concrete session: from current phase ANALYSIS,
the tool `Edit` emits COMPLETED for ANALYSIS, and `complete_current_step`
is what appends ANALYSIS to the completed list. -/
theorem step_tracker_transition_witness :
    (process_tool_use { current_steps := [("s", "ANALYSIS")], completed_steps := [] }
        "s" "Edit" none).2.1 =
      some { step_type := "ANALYSIS", status := "COMPLETED", progress := some 100,
             message := some "Step completed", tool_name := none } ∧
    get_completed_steps (complete_current_step
        { current_steps := [("s", "ANALYSIS")], completed_steps := [] } "s").1 "s" =
      [] ++ ["ANALYSIS"] := by
  constructor
  · have hb := ((step_tracker_transition
      { current_steps := [("s", "ANALYSIS")], completed_steps := [] }
      "s" "Edit" none "IMPLEMENTATION" "ANALYSIS").2.1) rfl rfl (by decide)
    rw [hb.1]
  · have he := ((step_tracker_transition
      { current_steps := [("s", "ANALYSIS")], completed_steps := [] }
      "s" "Edit" none "ANALYSIS" "ANALYSIS").2.2.2.2) rfl
    exact he.1

/-! ## C4: command interception -/

/-- C4 counterexample, two parts.  First: with two spaces after the
pattern (`">>swiftcast  echo hi"`), the first whitespace-delimited token
after the substring is `echo` and the remainder after that token is
`hi`, but the source slices `after[task_name.len()..]` from the start of
`after` (which begins with the extra space), yielding the argument
string `"o hi"`.  Second: `try_intercept` looks only at the LAST message
of the body — a `>>swiftcast` command in the last user-role message is
not intercepted when an assistant message follows it. -/
theorem custom_task_counterexample :
    parse_task_command ">>swiftcast  echo hi" = some ("echo", "o hi") ∧
    try_intercept_command (Json.obj [("messages", Json.arr
      [Json.obj [("role", Json.str "user"),
                 ("content", Json.str ">>swiftcast echo hi")],
       Json.obj [("role", Json.str "assistant"),
                 ("content", Json.str "ok")]])]) = none := by
  constructor <;> decide

/-- C4 (amended): the interceptor inspects only the LAST message of the
body and only when that message's role is `user` (string content, or the
first `text` item of a content array); when the command token
immediately follows the substring `">>swiftcast "`, the task name is
that first whitespace-delimited token and the argument string is the
trimmed remainder; a message without the substring is not intercepted.
(When extra whitespace separates the pattern from the token, the
argument string is instead the tail of `after` sliced at the token's
length — see the counterexample.) -/
theorem custom_task_interception (name rest s : String) (msgs : List Json)
    (msg : Json) (content : String) :
    (name.data ≠ [] → (∀ c ∈ name.data, c.isWhitespace = false) →
      parse_task_command (">>swiftcast " ++ name ++ " " ++ rest) =
        some (name, String.mk (trimChars rest.data))) ∧
    (findSubstr (">>swiftcast ").data s.data = none → parse_task_command s = none) ∧
    (msgs.getLast? = some msg → (msg.getField "role").bind Json.asStr ≠ some "user" →
      try_intercept_command (Json.obj [("messages", Json.arr msgs)]) = none) ∧
    (msgs.getLast? = some msg → (msg.getField "role").bind Json.asStr = some "user" →
      (msg.getField "content").bind Json.asStr = some content →
      try_intercept_command (Json.obj [("messages", Json.arr msgs)]) =
        parse_task_command content) := by
  refine ⟨?_, ?_, ?_, ?_⟩
  · intro hne hws
    obtain ⟨c, cs, hcd⟩ : ∃ c cs, name.data = c :: cs := by
      cases h : name.data with
      | nil => exact absurd h hne
      | cons c cs => exact ⟨c, cs, rfl⟩
    have hdata : (">>swiftcast " ++ name ++ " " ++ rest).data =
        (">>swiftcast ").data ++ (name.data ++ ' ' :: rest.data) := by
      simp [String.data_append]
    have hfind : findSubstr (">>swiftcast ").data
        ((">>swiftcast " ++ name ++ " " ++ rest).data) = some 0 := by
      rw [hdata]
      exact findSubstr_prefix _ _
    have hdrop : ((">>swiftcast " ++ name ++ " " ++ rest).data).drop
        (0 + (">>swiftcast ").data.length) = name.data ++ ' ' :: rest.data := by
      rw [hdata]
      simp [List.drop_left]
    have htok : firstToken (name.data ++ ' ' :: rest.data) = some name.data := by
      simp only [firstToken]
      have hdw : (name.data ++ ' ' :: rest.data).dropWhile Char.isWhitespace =
          name.data ++ ' ' :: rest.data := by
        rw [hcd, List.cons_append]
        apply List.dropWhile_cons_of_neg
        have := hws c (by rw [hcd]; exact List.mem_cons_self c cs)
        simp [this]
      rw [hdw]
      rw [takeWhile_append_of_forall _ _ _ (fun a ha => by simp [hws a ha])]
      have h0 : List.takeWhile (fun ch => !ch.isWhitespace) (' ' :: rest.data) = [] := by
        rw [List.takeWhile_cons]
        rw [if_neg (by decide)]
      rw [h0, List.append_nil]
      rw [hcd]
      rfl
    simp only [parse_task_command, hfind, hdrop, htok]
    rw [List.drop_left]
    rw [trimChars_cons_of_ws ' ' rest.data (by decide)]
  · intro h
    simp [parse_task_command, h]
  · intro hlast hrole
    have hm : (Json.obj [("messages", Json.arr msgs)]).getField "messages" =
        some (Json.arr msgs) := rfl
    simp [try_intercept_command, extract_intercept_message, hm, Json.asArr, hlast]
    intro a ha _
    exact absurd ha hrole
  · intro hlast hrole hcontent
    have hm : (Json.obj [("messages", Json.arr msgs)]).getField "messages" =
        some (Json.arr msgs) := rfl
    simp [try_intercept_command, extract_intercept_message, hm, Json.asArr, hlast,
      hrole, hcontent]

/-- Witness for C4 at concrete inputs: a single space after the pattern
parses as the claim says, and a trailing assistant message suppresses
interception. -/
theorem custom_task_interception_witness :
    parse_task_command (">>swiftcast " ++ "echo" ++ " " ++ "hi") =
      some ("echo", String.mk (trimChars "hi".data)) ∧
    try_intercept_command (Json.obj [("messages", Json.arr
      [Json.obj [("role", Json.str "assistant"),
                 ("content", Json.str ">>swiftcast echo hi")]])]) = none := by
  constructor
  · exact (custom_task_interception "echo" "hi" "" [] Json.null "").1
      (by decide) (by decide)
  · exact (custom_task_interception "x" "" ""
      [Json.obj [("role", Json.str "assistant"),
                 ("content", Json.str ">>swiftcast echo hi")]]
      (Json.obj [("role", Json.str "assistant"),
                 ("content", Json.str ">>swiftcast echo hi")]) "").2.2.1
      rfl (by decide)

/-! ## C6: summarization-instruction injection -/

set_option maxRecDepth 40000 in
/-- C6 counterexample, two parts.  First: with
`summarization_instructions = Some("")` (the empty string) the injector
still inserts the instruction block — the source only tests
`if let Some(ref instructions)`, never emptiness — contradicting "when
the instructions are empty, no instruction block is inserted".  Second:
when the "Please provide your summary…" marker is absent, the appended
fallback block is headed `"## Additional Instructions:"`, not the
`"## Additional Summarization Instructions (IMPORTANT - Must be
included in summary):"` block the claim says is appended. -/
theorem compaction_injector_counterexample :
    (modify_request_body
        { enabled := true, summarization_instructions := some "",
          context_injection := none, context_providers_enabled := false } none
        ("Your task is to create a detailed summary of the conversation "
          ++ "Please provide your summary based on the conversation so far")).map
      (fun r => strContains r
        "## Additional Summarization Instructions (IMPORTANT - Must be included in summary):") =
      some true ∧
    modify_request_body
        { enabled := true, summarization_instructions := some "X",
          context_injection := none, context_providers_enabled := false } none
        "Your task is to create a detailed summary of the conversation" =
      some ("Your task is to create a detailed summary of the conversation"
        ++ "\n\n## Additional Instructions:\nX") ∧
    strContains ("Your task is to create a detailed summary of the conversation"
        ++ "\n\n## Additional Instructions:\nX")
      "## Additional Summarization Instructions (IMPORTANT - Must be included in summary):" =
      false := by
  refine ⟨by decide, ?_, by decide⟩
  decide

/-- C6 (amended): when injection is enabled, the body contains the
summarization phrase and `summarization_instructions` is `Some` (whether
or not the string is empty), the hook returns the body with the
`"## Additional Summarization Instructions (IMPORTANT - …)"` block and
the instructions inserted immediately before the marker "Please provide
your summary based on the conversation so far" when that marker is
present, and otherwise appends `"\n\n## Additional Instructions:\n"`
followed by the instructions to the end of the body; a disabled config
injects nothing.  When `summarization_instructions` is `None`, the
summarization-injection path never fires: the hook returns `None` (no
instruction block is inserted) unless the body is a compacted
continuation with context to splice, in which case only
`inject_context`'s context blocks are inserted. -/
theorem summarization_injection (config : CompactionConfig)
    (provider_fetch : Option String) (body instructions : String) :
    (config.enabled = true → is_compaction_request body = true →
      config.summarization_instructions = some instructions →
      modify_request_body config provider_fetch body =
        some (inject_summarization_instructions body instructions)) ∧
    (∀ pos, findSubstr
        ("Please provide your summary based on the conversation so far").data body.data =
        some pos →
      ∃ pre suf : List Char,
        body.data = pre ++
          ("Please provide your summary based on the conversation so far").data ++ suf ∧
        inject_summarization_instructions body instructions =
          String.mk (pre ++
            ("\n\n## Additional Summarization Instructions (IMPORTANT - Must be included in summary):\n"
              ++ instructions ++ "\n\n").data ++
            ("Please provide your summary based on the conversation so far").data ++ suf)) ∧
    (findSubstr
        ("Please provide your summary based on the conversation so far").data body.data =
        none →
      inject_summarization_instructions body instructions =
        body ++ "\n\n## Additional Instructions:\n" ++ instructions) ∧
    (config.enabled = false → modify_request_body config provider_fetch body = none) ∧
    (config.summarization_instructions = none →
      modify_request_body config provider_fetch body =
        (if config.enabled = true then
          (if is_compacted_conversation body = true then
            (if (config.context_injection).isSome
                || (if config.context_providers_enabled then provider_fetch else none).isSome then
              some (inject_context body config.context_injection
                (if config.context_providers_enabled then provider_fetch else none))
            else none)
          else none)
        else none)) := by
  refine ⟨?_, ?_, ?_, ?_, ?_⟩
  · intro h1 h2 h3
    simp [modify_request_body, h1, h2, h3]
  · intro pos hpos
    have hsplit := findSubstr_some _ _ _ hpos
    have hbound := findSubstr_bound _ _ _ hpos
    have htake : (body.data.take pos).length = pos := by
      rw [List.length_take]
      omega
    have hdrop : body.data.drop pos =
        ("Please provide your summary based on the conversation so far").data ++
          body.data.drop
            (pos + ("Please provide your summary based on the conversation so far").data.length) := by
      conv_lhs => rw [hsplit]
      rw [List.append_assoc]
      exact List.drop_left' htake
    refine ⟨body.data.take pos,
      body.data.drop
        (pos + ("Please provide your summary based on the conversation so far").data.length),
      hsplit, ?_⟩
    simp only [inject_summarization_instructions, hpos]
    rw [hdrop]
    simp [List.append_assoc]
  · intro h
    simp [inject_summarization_instructions, h]
  · intro h
    simp [modify_request_body, h]
  · intro h
    by_cases he : config.enabled
    · simp only [modify_request_body, h, he]
      simp [ite_self]
    · simp [modify_request_body, h, he]

/-- Witness for C6 at concrete inputs: the enabled path injects, the
fallback path appends the `"## Additional Instructions:"` block, and
with `summarization_instructions = none` a summarization body is passed
through unmodified. -/
theorem summarization_injection_witness :
    modify_request_body
        { enabled := true, summarization_instructions := some "Prefer Korean.",
          context_injection := none, context_providers_enabled := false } none
        "Your task is to create a detailed summary of the conversation" =
      some (inject_summarization_instructions
        "Your task is to create a detailed summary of the conversation" "Prefer Korean.") ∧
    inject_summarization_instructions "no markers here" "X" =
      "no markers here" ++ "\n\n## Additional Instructions:\nX" ∧
    modify_request_body
        { enabled := true, summarization_instructions := none,
          context_injection := none, context_providers_enabled := false } none
        "Your task is to create a detailed summary of the conversation" = none := by
  refine ⟨?_, ?_, ?_⟩
  · exact (summarization_injection
      { enabled := true, summarization_instructions := some "Prefer Korean.",
        context_injection := none, context_providers_enabled := false } none
      "Your task is to create a detailed summary of the conversation" "Prefer Korean.").1
      rfl (by decide) rfl
  · exact (summarization_injection
      { enabled := true, summarization_instructions := some "X",
        context_injection := none, context_providers_enabled := false } none
      "no markers here" "X").2.2.1 (by decide)
  · have h := (summarization_injection
      { enabled := true, summarization_instructions := none,
        context_injection := none, context_providers_enabled := false } none
      "Your task is to create a detailed summary of the conversation" "").2.2.2.2 rfl
    rw [h]
    decide

/-! ## C5: synthesized SSE response structure -/

/-- A map by a constant function is a `replicate`. -/
theorem map_eq_replicate_of_const (f : α → β) (b : β) (h : ∀ a, f a = b) (l : List α) :
    l.map f = List.replicate l.length b := by
  induction l with
  | nil => rfl
  | cons a t ih => simp [h, ih, List.replicate_succ]

/-- A `filterMap` that never drops is a `map`. -/
theorem filterMap_eq_map_of_some (f : α → Option β) (g : α → β)
    (h : ∀ a, f a = some (g a)) (l : List α) : l.filterMap f = l.map g := by
  induction l with
  | nil => rfl
  | cons a t ih => simp [List.filterMap_cons, h, ih]

/-- C5: for every task text, the synthesized SSE stream is exactly one
`message_start` (carrying the synthesised message id), one
`content_block_start`, a run of `content_block_delta` events (one per
50-code-point chunk) whose texts concatenate to the task text with each
piece at most 50 code points, one `content_block_stop`, one
`message_delta` whose `delta.stop_reason` is JSON `null` (not
`end_turn`), and one `message_stop`, in that order. -/
theorem generate_sse_response_structure (message_id text : String) :
    ((generate_sse_response message_id text).map Prod.fst =
      ["message_start", "content_block_start"]
        ++ List.replicate (delta_texts (generate_sse_response message_id text)).length
             "content_block_delta"
        ++ ["content_block_stop", "message_delta", "message_stop"]) ∧
    ((delta_texts (generate_sse_response message_id text)).map String.data).flatten =
      text.data ∧
    (∀ s ∈ delta_texts (generate_sse_response message_id text), s.length ≤ 50) ∧
    (∀ ev ∈ generate_sse_response message_id text, ev.1 = "message_delta" →
      (ev.2.getField "delta").bind (fun d => d.getField "stop_reason") = some Json.null) ∧
    (∀ ev ∈ generate_sse_response message_id text, ev.1 = "message_start" →
      (ev.2.getField "message").bind (fun m => m.getField "id") =
        some (Json.str message_id)) := by
  have hdt : delta_texts (generate_sse_response message_id text) =
      (chunksOf 50 text.data).map String.mk := by
    simp only [delta_texts, generate_sse_response, List.filterMap_append, List.filterMap_map,
      List.filterMap_cons, List.filterMap_nil]
    simp
    exact filterMap_eq_map_of_some _ _ (fun c => rfl) _
  refine ⟨?_, ?_, ?_, ?_, ?_⟩
  · rw [hdt, List.length_map]
    simp only [generate_sse_response, List.map_append, List.map_map, List.map_cons,
      List.map_nil]
    simp only [List.append_cancel_left_eq, List.append_assoc]
    exact congrArg
      (fun l => l ++ ["content_block_stop", "message_delta", "message_stop"])
      (map_eq_replicate_of_const _ _ (fun c => rfl) _) |>.trans rfl
  · rw [hdt, List.map_map]
    have hid : (String.data ∘ String.mk) = (fun l : List Char => l) :=
      funext (fun l => rfl)
    rw [hid]
    simp [chunksOf_flatten]
  · rw [hdt]
    intro s hs
    rcases List.mem_map.mp hs with ⟨c, hc, rfl⟩
    simpa using chunksOf_length_le 50 (by norm_num) text.data c hc
  · intro ev hev hname
    simp only [generate_sse_response, List.mem_append, List.mem_cons, List.mem_map,
      List.not_mem_nil, or_false] at hev
    rcases hev with ((rfl | rfl) | ⟨c, _, rfl⟩) | (rfl | rfl | rfl)
    · simp at hname
    · simp at hname
    · simp at hname
    · simp at hname
    · rfl
    · simp at hname
  · intro ev hev hname
    simp only [generate_sse_response, List.mem_append, List.mem_cons, List.mem_map,
      List.not_mem_nil, or_false] at hev
    rcases hev with ((rfl | rfl) | ⟨c, _, rfl⟩) | (rfl | rfl | rfl)
    · rfl
    · simp at hname
    · simp at hname
    · simp at hname
    · simp at hname
    · simp at hname

/-- Witness for C5 at the concrete text `"hello"`: event names in order
with one delta, and the single delta text is within the 50-code-point
bound. -/
theorem generate_sse_response_witness :
    ((generate_sse_response "msg_x" "hello").map Prod.fst =
      ["message_start", "content_block_start"]
        ++ List.replicate (delta_texts (generate_sse_response "msg_x" "hello")).length
             "content_block_delta"
        ++ ["content_block_stop", "message_delta", "message_stop"]) ∧
    "hello".length ≤ 50 := by
  refine ⟨(generate_sse_response_structure "msg_x" "hello").1, ?_⟩
  exact (generate_sse_response_structure "msg_x" "hello").2.2.1 "hello"
    (by simp [delta_texts, generate_sse_response, chunksOf, Json.getField, Json.asStr])
